import Mathlib

/-!
Shallow embedding of the AITeam repository's core helpers
(`src/processing_helpers.py`, `src/code_executor.py`, `src/utils.py`,
`features/analysis_guidance.py`) together with theorems settling the
frozen claims about them.

Python strings are modelled as Lean `String`s (lists of unicode
characters); regexes are hand-compiled to deterministic character-list
scanners (each regex used by the code is backtracking-free, so a
deterministic greedy scan is exact); Python exceptions are modelled with
explicit error values; the Streamlit session object is modelled as an
explicit state record; the opaque external effects (the LLM call, the
`exec` of a snippet, the actual polars/docx/pdf readers) are oracle
parameters.
-/

namespace AITeam

/-! ## Python string primitives -/

/-- Characters stripped by Python `str.strip()` / matched by regex `\s`
(ASCII whitespace plus the unicode whitespace code points Python treats
as space). -/
def pyWsChars : List Char :=
  [' ', '\t', '\n', '\r', '\x0b', '\x0c',
   '\x1c', '\x1d', '\x1e', '\x1f', '\x85', '\xa0',
   ' ', ' ', ' ', ' ', ' ', ' ', ' ',
   ' ', ' ', ' ', ' ', ' ',
   ' ', ' ', ' ', ' ', '　']

def pyWsC (c : Char) : Bool := pyWsChars.contains c

/-- `str.strip()` on a character list: drop whitespace from both ends. -/
def stripL (cs : List Char) : List Char :=
  ((cs.dropWhile pyWsC).reverse.dropWhile pyWsC).reverse

/-- `str.strip()` on a Lean string. -/
def pyStrip (s : String) : String := String.mk (stripL s.data)

/-- Line-boundary characters recognised by Python `str.splitlines`
(besides the two-character boundary `\r\n`). -/
def pyLineBoundary (c : Char) : Bool :=
  ['\n', '\r', '\x0b', '\x0c', '\x1c', '\x1d', '\x1e', '\x85',
   ' ', ' '].contains c

/-- `str.splitlines(keepends=True)` on a character list: each returned
line keeps its terminating boundary; `\r\n` counts as one boundary. -/
def splitLinesAux : List Char → List Char → List (List Char)
  | [], acc => if acc = [] then [] else [acc.reverse]
  | '\r' :: '\n' :: rest, acc => (acc.reverse ++ ['\r', '\n']) :: splitLinesAux rest []
  | c :: rest, acc =>
    if pyLineBoundary c then (acc.reverse ++ [c]) :: splitLinesAux rest []
    else splitLinesAux rest (c :: acc)

/-- `str.splitlines(keepends=True)` on a Lean string. -/
def splitlinesKE (s : String) : List String :=
  (splitLinesAux s.data []).map String.mk

/-- `"".join(blocks)`. -/
def pyJoin (l : List String) : String := String.mk (l.map String.data).flatten

/-- `s.startswith(pat)` on character lists. -/
def startsWithL : List Char → List Char → Bool
  | [], _ => true
  | _ :: _, [] => false
  | p :: ps, c :: cs => p = c && startsWithL ps cs

/-- Substring containment (`pat in s` for Python strings). -/
def containsSub (pat : List Char) : List Char → Bool
  | [] => startsWithL pat []
  | c :: cs => startsWithL pat (c :: cs) || containsSub pat cs

/-! ## The Task-header regex of `parse_associate_tasks`

The code matches each stripped line against
`^\s*\**\s*Task\s*\d+\.?\s*\**:` (re.IGNORECASE, `re.match`, i.e. a
prefix match).  Every quantifier in the pattern is deterministic (no
alternative can steal characters from the next atom), so a greedy
left-to-right scan over the character list is an exact compilation. -/

def matchCharCI (c : Char) : List Char → Option (List Char)
  | [] => none
  | x :: rest => if x.toLower = c then some rest else none

/-- Match a literal (given lowercased) case-insensitively. -/
def matchLitCI : List Char → List Char → Option (List Char)
  | [], cs => some cs
  | p :: ps, cs => (matchCharCI p cs).bind (matchLitCI ps)

/-- `re.match(r"^\s*\**\s*Task\s*\d+\.?\s*\**:", line)` as a Bool. -/
def taskHeaderMatchL (cs : List Char) : Bool :=
  let s1 := cs.dropWhile pyWsC
  let s2 := s1.dropWhile (fun c => c = '*')
  let s3 := s2.dropWhile pyWsC
  match matchLitCI ['t', 'a', 's', 'k'] s3 with
  | none => false
  | some s4 =>
    let s5 := s4.dropWhile pyWsC
    match s5 with
    | [] => false
    | d :: _ =>
      if d.isDigit then
        let s6 := s5.dropWhile Char.isDigit
        let s7 := match s6 with
          | '.' :: rest => rest
          | other => other
        let s8 := s7.dropWhile pyWsC
        let s9 := s8.dropWhile (fun c => c = '*')
        match s9 with
        | ':' :: _ => true
        | _ => false
      else false

def taskHeaderMatch (s : String) : Bool := taskHeaderMatchL s.data

/-- `"5. Develop Narrative:" in line`. -/
def containsStopLine (s : String) : Bool :=
  containsSub "5. Develop Narrative:".data s.data

/-! ## `parse_associate_tasks` (src/processing_helpers.py lines 5-102) -/

/-- Flush the current task block: `formatted_tasks.append("".join(current_task_block).strip())`
guarded by `if current_task_block:`. -/
def flushBlock (cur acc : List String) : List String :=
  if cur = [] then acc else acc ++ [pyStrip (pyJoin cur)]

/-- The main line loop of `parse_associate_tasks` (lines 27-51),
including the final flush after the loop. -/
def assocLoop : List String → List String → List String → List String
  | [], cur, acc => flushBlock cur acc
  | l :: rest, cur, acc =>
    if containsStopLine l then flushBlock cur acc
    else if taskHeaderMatch (pyStrip l) then assocLoop rest [l] (flushBlock cur acc)
    else if cur = [] then assocLoop rest cur acc
    else assocLoop rest (cur ++ [l]) acc

/-- Lines 27-54: the loop plus
`formatted_tasks = [task for task in formatted_tasks if task]`. -/
def processLines (lines : List String) : List String :=
  (assocLoop lines [] []).filter (fun t => t ≠ "")

def manualOption : String := "Manually define task below"

def defaultTaskMsg : String := "Manually define task based on guidance above."

/-- First-occurrence deduplication (lines 77-85): the `seen` set is the
list of already-emitted tasks. -/
def dedupAux (seen : List String) : List String → List String
  | [] => []
  | x :: xs => if x ∈ seen then dedupAux seen xs else x :: dedupAux (x :: seen) xs

def dedupKeepFirst (l : List String) : List String := dedupAux [] l

/-- `list.remove(x)`: drop the first occurrence. -/
def removeFirst : List String → String → List String
  | [], _ => []
  | x :: xs, a => if x = a then xs else x :: removeFirst xs a

/-- Lines 73-75: `if "Manually define task below" not in formatted_tasks:
formatted_tasks.append(...)`. -/
def withManual (l : List String) : List String :=
  if manualOption ∈ l then l else l ++ [manualOption]

/-- Lines 87-90: move `"Manually define task below"` to the end if
present (`list.remove` + `append`). -/
def moveManualEnd (l : List String) : List String :=
  if manualOption ∈ l then removeFirst l manualOption ++ [manualOption] else l

/-- Lines 73-102: append the manual option, deduplicate, move the manual
option to the end and fall back to the default prompt when empty. -/
def finalizeTasks (l : List String) : List String :=
  let l3 := moveManualEnd (dedupKeepFirst (withManual l))
  if l3 = [] then [defaultTaskMsg] else l3

/-- Body of `parse_associate_tasks` for truthy input (lines 17-102). -/
def parseAssociateBody (g : String) : List String :=
  let blocks := processLines (splitlinesKE (pyStrip g))
  let blocks := if blocks = [] ∧ pyStrip g ≠ "" then [pyStrip g] else blocks
  if blocks = [] then [defaultTaskMsg] else finalizeTasks blocks

/-- `parse_associate_tasks(guidance_text)`; `none` models Python `None`
and, like the empty string, is falsy (lines 10-12). -/
def parse_associate_tasks : Option String → List String
  | none => []
  | some g => if g = "" then [] else parseAssociateBody g

/-! ## `parse_analyst_task_response` (src/processing_helpers.py lines 104-178)

The four header regexes (re.MULTILINE | re.IGNORECASE) are
  approach:     `^\s*\d*\.?\s*\**approach\**:`
  code:         `^\s*\d*\.?\s*\**python?\s*code\**:`
  results_text: `^\s*\d*\.?\s*\**results\**:`
  insights:     `^\s*\d*\.?\s*\**key?\s*insights\**:`
(note `python?` makes only the final `n` optional, and `key?` only the
final `y`).  Again every quantifier is deterministic, so each regex is
compiled to a greedy scanner returning the suffix after the match. -/

/-- Optionally consume one character, case-insensitively. -/
def matchOptCharCI (c : Char) (cs : List Char) : List Char :=
  match matchCharCI c cs with
  | some rest => rest
  | none => cs

/-- The shared `\s*\d*\.?\s*\**` preamble of all four header patterns. -/
def headerPre (cs : List Char) : List Char :=
  let s1 := cs.dropWhile pyWsC
  let s2 := s1.dropWhile Char.isDigit
  let s3 := match s2 with
    | '.' :: rest => rest
    | other => other
  let s4 := s3.dropWhile pyWsC
  s4.dropWhile (fun c => c = '*')

/-- The shared `\**:` tail of all four header patterns. -/
def headerTail (cs : List Char) : Option (List Char) :=
  match cs.dropWhile (fun c => c = '*') with
  | ':' :: rest => some rest
  | _ => none

def matchApproachH (cs : List Char) : Option (List Char) :=
  (matchLitCI "approach".data (headerPre cs)).bind headerTail

def matchCodeH (cs : List Char) : Option (List Char) :=
  (matchLitCI "pytho".data (headerPre cs)).bind fun s =>
    (matchLitCI "code".data ((matchOptCharCI 'n' s).dropWhile pyWsC)).bind headerTail

def matchResultsH (cs : List Char) : Option (List Char) :=
  (matchLitCI "results".data (headerPre cs)).bind headerTail

def matchInsightsH (cs : List Char) : Option (List Char) :=
  (matchLitCI "ke".data (headerPre cs)).bind fun s =>
    (matchLitCI "insights".data ((matchOptCharCI 'y' s).dropWhile pyWsC)).bind headerTail

/-- `re.finditer` for a `^`-anchored pattern under re.MULTILINE: attempt
the match at position 0 and after every `\n`; on success record
`(start, end)` and resume scanning at the match end (matches never have
length 0 here, since each pattern must consume a `:`). -/
def scanAux (m : List Char → Option (List Char)) :
    Nat → List Char → Nat → Bool → List (Nat × Nat)
  | 0, _, _, _ => []
  | _, [], _, _ => []
  | fuel + 1, c :: rest, i, atStart =>
    if atStart then
      match m (c :: rest) with
      | some suffix =>
        let len := (c :: rest).length - suffix.length
        if len = 0 then scanAux m fuel rest (i + 1) (c = '\n')
        else (i, i + len) ::
          scanAux m fuel suffix (i + len) (((c :: rest).take len).getLast? == some '\n')
      | none => scanAux m fuel rest (i + 1) (c = '\n')
    else scanAux m fuel rest (i + 1) (c = '\n')

def finditerKey (m : List Char → Option (List Char)) (cs : List Char) : List (Nat × Nat) :=
  scanAux m (cs.length + 1) cs 0 true

inductive AKey where
  | approach
  | code
  | results_text
  | insights
deriving DecidableEq

structure SecMatch where
  key : AKey
  mstart : Nat
  mstop : Nat
deriving DecidableEq

/-- `section_matches`: the four finditer passes, in dict insertion
order (lines 130-133). -/
def sectionMatches (cs : List Char) : List SecMatch :=
  ((finditerKey matchApproachH cs).map fun p => ⟨AKey.approach, p.1, p.2⟩) ++
  ((finditerKey matchCodeH cs).map fun p => ⟨AKey.code, p.1, p.2⟩) ++
  ((finditerKey matchResultsH cs).map fun p => ⟨AKey.results_text, p.1, p.2⟩) ++
  ((finditerKey matchInsightsH cs).map fun p => ⟨AKey.insights, p.1, p.2⟩)

/-- Stable insertion preserving input order among equal start indices,
matching Python's stable `sorted(..., key=lambda x: x["start"])`. -/
def insertByStart (x : SecMatch) : List SecMatch → List SecMatch
  | [] => [x]
  | y :: ys => if y.mstart < x.mstart then y :: insertByStart x ys else x :: y :: ys

def sortedSections (cs : List Char) : List SecMatch :=
  (sectionMatches cs).foldr insertByStart []

/-- `re.sub(r"^\s*\*\*", "", content)`: remove one leading
whitespace-run followed by a literal `**`, if present. -/
def subLeadingBold (cs : List Char) : List Char :=
  let d := cs.dropWhile pyWsC
  match d with
  | '*' :: '*' :: rest => rest
  | _ => cs

/-- `re.sub(r"\*\*\s*$", "", content)`: remove a trailing literal `**`
followed only by whitespace, if present. -/
def subTrailingBold (cs : List Char) : List Char :=
  let r := cs.reverse.dropWhile pyWsC
  match r with
  | '*' :: '*' :: rest => rest.reverse
  | _ => cs

/-- `re.sub(r"```python\n?|```", "", content, flags=re.IGNORECASE)`:
delete every occurrence of ```` ```python ````(with optional newline)
or ```` ``` ````. -/
def removeFences : Nat → List Char → List Char
  | 0, cs => cs
  | _, [] => []
  | fuel + 1, c :: rest =>
    if startsWithL ['\x60', '\x60', '\x60'] (c :: rest) then
      let after3 := rest.drop 2
      match matchLitCI "python".data after3 with
      | some s =>
        match s with
        | '\n' :: s2 => removeFences fuel s2
        | _ => removeFences fuel s
      | none => removeFences fuel after3
    else c :: removeFences fuel rest

/-- The result dictionary: the Python dict always holds exactly the keys
`approach`, `code`, `results_text`, `insights`. -/
structure AnalystParts where
  approach : String
  code : String
  results_text : String
  insights : String
deriving DecidableEq

def initParts : AnalystParts :=
  { approach := "2.Could not parse \x27approach\x27 section.",
    code := "Could not parse \x27code\x27 section.",
    results_text := "Could not parse \x27results_text\x27 section.",
    insights := "Could not parse \x27insights\x27 section." }

def setPart (p : AnalystParts) (k : AKey) (v : String) : AnalystParts :=
  match k with
  | AKey.approach => { p with approach := v }
  | AKey.code => { p with code := v }
  | AKey.results_text => { p with results_text := v }
  | AKey.insights => { p with insights := v }

def getPart (p : AnalystParts) : AKey → String
  | AKey.approach => p.approach
  | AKey.code => p.code
  | AKey.results_text => p.results_text
  | AKey.insights => p.insights

/-- The content-extraction loop (lines 144-168): slice from the match
end to the next header start, strip, unbold, and for the code key strip
markdown fences. -/
def extractAll (txt : List Char) : List SecMatch → AnalystParts → AnalystParts
  | [], parts => parts
  | m :: rest, parts =>
    let cend := match rest.head? with
      | some n => n.mstart
      | none => txt.length
    let content0 := stripL ((txt.drop m.mstop).take (cend - m.mstop))
    let content1 := stripL (subLeadingBold content0)
    let content2 := stripL (subTrailingBold content1)
    let content3 :=
      if m.key = AKey.code then stripL (removeFences (content2.length + 1) content2)
      else content2
    extractAll txt rest (setPart parts m.key (String.mk content3))

/-- `parse_analyst_task_response(response_text)` (lines 104-178); the
final "ensure all expected keys are present" loop of the Python code is
a no-op because the dict always holds exactly the four keys. -/
def parse_analyst_task_response (s : String) : AnalystParts :=
  if s = "" then
    { approach := "Error: No response from Analyst.", code := "",
      results_text := "", insights := "" }
  else extractAll s.data (sortedSections s.data) initParts

/-! ## `generate_associate_guidance` (features/analysis_guidance.py lines 8-40)

The Streamlit session object is modelled as an explicit record; the
prompt-template `.format` call (which may raise `KeyError`) and the
`get_gemini_response` call are oracle parameters.  The returned Bool
records whether the LLM was called. -/

/-- Python truthiness of an optional string session field: `None` and
`""` are falsy. -/
def falsyOpt : Option String → Bool
  | none => true
  | some s => s = ""

def startsWithErr (s : String) : Bool := startsWithL "Error:".data s.data

structure GuidanceState where
  problem_statement : String
  associate_prompt_template : String
  manager_plan : Option String
  analyst_summary : Option String
  associate_guidance : Option String
  conversation : List (String × String)
deriving DecidableEq

/-- `generate_associate_guidance()`: `fmt` models
`template.format(problem_statement=..., manager_plan=..., analyst_summary=...)`
(`Except.error` is a raised `KeyError`), `oracle` models
`get_gemini_response`.  The Bool is true iff the LLM was called. -/
def generate_associate_guidance
    (fmt : String → String → String → String → Except String String)
    (oracle : String → String) (s : GuidanceState) : GuidanceState × Bool :=
  if falsyOpt s.analyst_summary || falsyOpt s.manager_plan then (s, false)
  else
    match fmt s.associate_prompt_template s.problem_statement
        (s.manager_plan.getD "") (s.analyst_summary.getD "") with
    | Except.error _ => (s, false)
    | Except.ok prompt =>
      let resp := oracle prompt
      if resp ≠ "" ∧ ¬ startsWithErr resp then
        ({ s with associate_guidance := some resp,
                  conversation := s.conversation ++
                    [("associate", "Generated Analysis Guidance:\n" ++ resp)] }, true)
      else
        ({ s with conversation := s.conversation ++
                    [("system", "Error getting Associate guidance: " ++ resp)] }, true)

/-! ## `execute_snippet` (src/code_executor.py lines 12-63)

The Python `exec` is an oracle: given the code and the prepared local
namespace it returns the text printed to the redirected stdout, the
final namespace, and `some msg` when it raised an exception (the
namespace then holds the partial mutations). -/

/-- Word characters of the regex `\W` (ASCII model of Python `\w`;
non-ASCII letters are treated as non-word characters, which only affects
the sanitized variable's spelling, not the shape of the namespace). -/
def isWordChar (c : Char) : Bool := c.isAlphanum || c = '_'

/-- `_sanitize_var_name(filename)`: drop the extension
(`filename.rsplit(".", 1)[0]`), replace every `\W` with `_`, prepend `_`
when the name starts with a digit (`^(?=\d)`), and prefix `df_`. -/
def _sanitize_var_name (filename : String) : String :=
  let name := match (List.range filename.data.length).filter
      (fun i => filename.data.getD i ' ' = '.') |>.getLast? with
    | some i => filename.data.take i
    | none => filename.data
  let repl := name.map fun c => if isWordChar c then c else '_'
  let repl := match repl with
    | d :: _ => if d.isDigit then '_' :: repl else repl
    | [] => repl
  String.mk ('d' :: 'f' :: '_' :: repl)

/-- A namespace: an insertion-ordered dict from names to values. -/
def NS (V : Type) := List (String × V)

def nsLookup {V : Type} (ns : NS V) (k : String) : Option V :=
  match ns with
  | [] => none
  | (k', v) :: rest => if k' = k then some v else nsLookup rest k

/-- Dict assignment: overwrite in place or append. -/
def nsSet {V : Type} (ns : NS V) (k : String) (v : V) : NS V :=
  match ns with
  | [] => [(k, v)]
  | (k', v') :: rest => if k' = k then (k, v) :: rest else (k', v') :: nsSet rest k v

/-- Outcome of the `exec` oracle: text printed to the redirected stdout,
the final local namespace, and the raised exception message, if any. -/
structure ExecOutcome (V : Type) where
  printed : String
  ns : NS V
  error : Option String

/-- The `local_ns` prepared by `execute_snippet` (lines 38-53): the four
library modules, one sanitized variable per dataframe, and `df` bound to
the first dataframe. -/
def buildLocalNs {V : Type} (dataframes : List (String × V))
    (vpl vpd vpx vgo : V) : NS V :=
  let ns0 : NS V := [("pl", vpl), ("pd", vpd), ("px", vpx), ("go", vgo)]
  let ns1 := dataframes.foldl (fun ns p => nsSet ns (_sanitize_var_name p.1) p.2) ns0
  match dataframes.head? with
  | some p => nsSet ns1 "df" p.2
  | none => ns1

/-- `execute_snippet(code, dataframes)`: build the local namespace, run
the `exec` oracle, append the caught exception message to the captured
stdout, and return the stdout together with `local_ns.get("fig")`. -/
def execute_snippet {V : Type} (run : String → NS V → ExecOutcome V)
    (code : String) (dataframes : List (String × V)) (vpl vpd vpx vgo : V) :
    String × Option V :=
  let outcome := run code (buildLocalNs dataframes vpl vpd vpx vgo)
  let out := match outcome.error with
    | none => outcome.printed
    | some msg => outcome.printed ++ "\nError during execution: " ++ msg ++ "\n"
  (out, nsLookup outcome.ns "fig")

/-! ## File ingestion and profiling (src/utils.py lines 98-297)

`pl.read_csv`, `pl.read_excel`, docx and pdf extraction are oracles
recorded on the uploaded-file model; a polars DataFrame is modelled by
the observations the profiling code uses (columns, height, schema, and
the outcomes of `null_count()` and `describe()`). -/

/-- The result of a fallible polars call (`Except.error` = exception). -/
inductive PyRes (α : Type) where
  | ok (a : α)
  | err (msg : String)
deriving DecidableEq

/-- An intermediate polars DataFrame observed only through its shape
(plus an opaque tag distinguishing values). -/
structure MiniDF where
  shape : Nat × Nat
  tag : String
deriving DecidableEq

structure PolarsDF where
  columns : List String
  height : Nat
  schema : List (String × String)
  null_count : PyRes MiniDF
  describe : PyRes MiniDF
deriving DecidableEq

/-- A profile dict entry that starts as the `None` placeholder and is
then set to a real DataFrame or to an error-marker DataFrame
(`pl.DataFrame({"error": [...]})`). -/
inductive SummaryEntry where
  | noneE
  | df (d : MiniDF)
  | errDF (msg : String)
deriving DecidableEq

structure TabProfile where
  file_type : String
  columns : List String
  shape : Nat × Nat
  dtypes : List (String × String)
  missing_summary : SummaryEntry
  numeric_summary : SummaryEntry
deriving DecidableEq

/-- `_generate_polars_profile(df)` (lines 98-137). -/
def _generate_polars_profile (df : PolarsDF) : TabProfile :=
  let profile : TabProfile :=
    { file_type := "tabular", columns := df.columns,
      shape := (df.height, df.columns.length), dtypes := df.schema,
      missing_summary := SummaryEntry.noneE, numeric_summary := SummaryEntry.noneE }
  let profile := { profile with missing_summary :=
    match df.null_count with
    | PyRes.ok m =>
      if m.shape = (1, df.columns.length) then SummaryEntry.df m
      else SummaryEntry.errDF "Unexpected null_count shape"
    | PyRes.err e => SummaryEntry.errDF ("Missing value calculation error: " ++ e) }
  let profile := { profile with numeric_summary :=
    match df.describe with
    | PyRes.ok m => SummaryEntry.df m
    | PyRes.err e => SummaryEntry.errDF ("Describe calculation error: " ++ e) }
  profile

/-- The profile slot of the triple returned by `process_uploaded_file`:
a tabular profile dict or the small text-file profile dict. -/
inductive FileProfile where
  | tabular (p : TabProfile)
  | textdoc (file_type : String) (text_length : Nat)
deriving DecidableEq

/-- An uploaded file together with the outcomes of the oracle readers:
`csv_read` is `pl.read_csv`, `excel_read` is `pl.read_excel` (an
`ImportError` for a missing engine is just another error), and
`docx_text` / `pdf_text` are the extraction results (those helpers
already return `""` on error). -/
structure UploadedFile where
  name : String
  csv_read : PyRes PolarsDF
  excel_read : PyRes PolarsDF
  docx_text : String
  pdf_text : String
deriving DecidableEq

/-- `process_csv_file` (lines 140-164). -/
def process_csv_file (f : UploadedFile) :
    Option PolarsDF × Option FileProfile × String :=
  match f.csv_read with
  | PyRes.ok df => (some df, some (FileProfile.tabular (_generate_polars_profile df)), "")
  | PyRes.err _ => (none, none, "")

/-- `process_excel_file` (lines 167-199). -/
def process_excel_file (f : UploadedFile) :
    Option PolarsDF × Option FileProfile × String :=
  match f.excel_read with
  | PyRes.ok df => (some df, some (FileProfile.tabular (_generate_polars_profile df)), "")
  | PyRes.err _ => (none, none, "")

/-- The extension part of `os.path.splitext(name)` for a plain file
name: the suffix from the last dot, provided some earlier character of
the name is not a dot (leading dots mark a hidden file, not an
extension). -/
def splitextExt (cs : List Char) : List Char :=
  match (List.range cs.length).filter (fun i => cs.getD i ' ' = '.') |>.getLast? with
  | some i => if (cs.take i).any (fun c => c ≠ '.') then cs.drop i else []
  | none => []

/-- `os.path.splitext(uploaded_file.name)[1].lower()`. -/
def extLower (s : String) : String := String.mk ((splitextExt s.data).map Char.toLower)

/-- `process_uploaded_file(uploaded_file)` (lines 254-297); `none`
models a falsy (absent) upload. -/
def process_uploaded_file : Option UploadedFile →
    Option PolarsDF × Option FileProfile × String
  | none => (none, none, "")
  | some f =>
    let ext := extLower f.name
    if ext = ".csv" then process_csv_file f
    else if ext = ".xlsx" ∨ ext = ".xls" then process_excel_file f
    else if ext = ".docx" then
      (none, some (FileProfile.textdoc "docx" f.docx_text.length), f.docx_text)
    else if ext = ".pdf" then
      (none, some (FileProfile.textdoc "pdf" f.pdf_text.length), f.pdf_text)
    else (none, none, "")

/-! ## Helper lemmas -/

theorem mem_removeFirst_sub {l : List String} {a b : String}
    (h : a ∈ removeFirst l b) : a ∈ l := by
  induction l with
  | nil => exact absurd h (List.not_mem_nil a)
  | cons x xs ih =>
    by_cases hx : x = b
    · simp only [removeFirst, if_pos hx] at h
      exact List.mem_cons_of_mem _ h
    · simp only [removeFirst, if_neg hx, List.mem_cons] at h
      rcases h with h | h
      · exact h ▸ List.mem_cons_self _ _
      · exact List.mem_cons_of_mem _ (ih h)

theorem nodup_removeFirst {l : List String} {b : String}
    (h : l.Nodup) : (removeFirst l b).Nodup := by
  induction l with
  | nil => simp [removeFirst]
  | cons x xs ih =>
    rcases List.nodup_cons.mp h with ⟨hx, hxs⟩
    by_cases heq : x = b
    · simpa [removeFirst, if_pos heq] using hxs
    · simp only [removeFirst, if_neg heq]
      exact List.nodup_cons.mpr ⟨fun hmem => hx (mem_removeFirst_sub hmem), ih hxs⟩

theorem not_mem_removeFirst_self {l : List String} {b : String}
    (h : l.Nodup) : b ∉ removeFirst l b := by
  induction l with
  | nil => exact List.not_mem_nil b
  | cons x xs ih =>
    rcases List.nodup_cons.mp h with ⟨hx, hxs⟩
    by_cases heq : x = b
    · simp only [removeFirst, if_pos heq]
      exact fun hb => hx (heq ▸ hb)
    · simp only [removeFirst, if_neg heq, List.mem_cons]
      rintro (h | h)
      · exact heq h.symm
      · exact ih hxs h

theorem nodup_concat_of {l : List String} {a : String}
    (h : l.Nodup) (ha : a ∉ l) : (l ++ [a]).Nodup := by
  induction l with
  | nil => simp
  | cons x xs ih =>
    rcases List.nodup_cons.mp h with ⟨hx, hxs⟩
    refine List.nodup_cons.mpr ⟨?_, ih hxs (fun hm => ha (List.mem_cons_of_mem _ hm))⟩
    intro hmem
    rcases List.mem_append.mp hmem with h | h
    · exact hx h
    · exact ha (List.mem_singleton.mp h ▸ List.mem_cons_self _ _)

theorem mem_dedupAux_sub {seen l : List String} {a : String}
    (h : a ∈ dedupAux seen l) : a ∈ l := by
  induction l generalizing seen with
  | nil => exact absurd h (by simp [dedupAux])
  | cons x xs ih =>
    by_cases hx : x ∈ seen
    · simp only [dedupAux, if_pos hx] at h
      exact List.mem_cons_of_mem _ (ih h)
    · simp only [dedupAux, if_neg hx, List.mem_cons] at h
      rcases h with h | h
      · exact h ▸ List.mem_cons_self _ _
      · exact List.mem_cons_of_mem _ (ih h)

theorem mem_dedupAux_not_seen {seen l : List String} {a : String}
    (h : a ∈ dedupAux seen l) : a ∉ seen := by
  induction l generalizing seen with
  | nil => simp [dedupAux] at h
  | cons x xs ih =>
    by_cases hx : x ∈ seen
    · simp only [dedupAux, if_pos hx] at h
      exact ih h
    · simp only [dedupAux, if_neg hx, List.mem_cons] at h
      rcases h with h | h
      · exact h ▸ hx
      · exact fun hs => ih h (List.mem_cons_of_mem _ hs)

theorem nodup_dedupAux (seen l : List String) : (dedupAux seen l).Nodup := by
  induction l generalizing seen with
  | nil => simp [dedupAux]
  | cons x xs ih =>
    by_cases hx : x ∈ seen
    · simpa [dedupAux, if_pos hx] using ih seen
    · simp only [dedupAux, if_neg hx]
      refine List.nodup_cons.mpr ⟨fun hmem => ?_, ih (x :: seen)⟩
      exact mem_dedupAux_not_seen hmem (List.mem_cons_self _ _)

theorem mem_dedupAux_of_mem {seen l : List String} {a : String}
    (hl : a ∈ l) (hs : a ∉ seen) : a ∈ dedupAux seen l := by
  induction l generalizing seen with
  | nil => simp at hl
  | cons x xs ih =>
    by_cases hx : x ∈ seen
    · simp only [dedupAux, if_pos hx]
      rcases List.mem_cons.mp hl with h | h
      · exact absurd (h ▸ hx) hs
      · exact ih h hs
    · simp only [dedupAux, if_neg hx, List.mem_cons]
      rcases List.mem_cons.mp hl with h | h
      · exact Or.inl h
      · by_cases hax : a = x
        · exact Or.inl hax
        · exact Or.inr (ih h (by simp [hax, hs]))

theorem nodup_dedupKeepFirst (l : List String) : (dedupKeepFirst l).Nodup :=
  nodup_dedupAux [] l

theorem mem_dedupKeepFirst_sub {l : List String} {a : String}
    (h : a ∈ dedupKeepFirst l) : a ∈ l := mem_dedupAux_sub h

theorem mem_dedupKeepFirst_of_mem {l : List String} {a : String}
    (h : a ∈ l) : a ∈ dedupKeepFirst l := mem_dedupAux_of_mem h (by simp)

theorem mem_withManual_self (l : List String) : manualOption ∈ withManual l := by
  unfold withManual
  by_cases h : manualOption ∈ l
  · rwa [if_pos h]
  · rw [if_neg h]; simp

theorem mem_withManual_sub {l : List String} {t : String}
    (h : t ∈ withManual l) : t = manualOption ∨ t ∈ l := by
  unfold withManual at h
  by_cases hm : manualOption ∈ l
  · rw [if_pos hm] at h; exact Or.inr h
  · rw [if_neg hm] at h
    rcases List.mem_append.mp h with h | h
    · exact Or.inr h
    · exact Or.inl (List.mem_singleton.mp h)

theorem nodup_moveManualEnd {l : List String} (h : l.Nodup) :
    (moveManualEnd l).Nodup := by
  unfold moveManualEnd
  by_cases hm : manualOption ∈ l
  · rw [if_pos hm]
    exact nodup_concat_of (nodup_removeFirst h) (not_mem_removeFirst_self h)
  · rwa [if_neg hm]

theorem mem_moveManualEnd_sub {l : List String} {t : String}
    (h : t ∈ moveManualEnd l) : t = manualOption ∨ t ∈ l := by
  unfold moveManualEnd at h
  by_cases hm : manualOption ∈ l
  · rw [if_pos hm] at h
    rcases List.mem_append.mp h with h | h
    · exact Or.inr (mem_removeFirst_sub h)
    · exact Or.inl (List.mem_singleton.mp h)
  · rw [if_neg hm] at h; exact Or.inr h

theorem moveManualEnd_of_mem {l : List String} (h : manualOption ∈ l) :
    moveManualEnd l = removeFirst l manualOption ++ [manualOption] := by
  unfold moveManualEnd; rw [if_pos h]

theorem getLast?_moveManualEnd {l : List String} (h : manualOption ∈ l) :
    (moveManualEnd l).getLast? = some manualOption := by
  rw [moveManualEnd_of_mem h, List.getLast?_concat]

theorem moveManualEnd_ne_nil {l : List String} (h : manualOption ∈ l) :
    moveManualEnd l ≠ [] := by
  rw [moveManualEnd_of_mem h]; simp

theorem manual_mem_stage (l : List String) :
    manualOption ∈ moveManualEnd (dedupKeepFirst (withManual l)) := by
  rw [moveManualEnd_of_mem (mem_dedupKeepFirst_of_mem (mem_withManual_self l))]
  simp

theorem finalizeTasks_eq (l : List String) :
    finalizeTasks l = moveManualEnd (dedupKeepFirst (withManual l)) := by
  unfold finalizeTasks
  rw [if_neg (moveManualEnd_ne_nil (mem_dedupKeepFirst_of_mem (mem_withManual_self l)))]

theorem nodup_finalizeTasks (l : List String) : (finalizeTasks l).Nodup := by
  rw [finalizeTasks_eq]
  exact nodup_moveManualEnd (nodup_dedupKeepFirst _)

theorem getLast?_finalizeTasks (l : List String) :
    (finalizeTasks l).getLast? = some manualOption := by
  rw [finalizeTasks_eq]
  exact getLast?_moveManualEnd (mem_dedupKeepFirst_of_mem (mem_withManual_self l))

theorem mem_finalizeTasks_sub {l : List String} {t : String}
    (h : t ∈ finalizeTasks l) : t = manualOption ∨ t ∈ l := by
  rw [finalizeTasks_eq] at h
  rcases mem_moveManualEnd_sub h with h | h
  · exact Or.inl h
  · rcases mem_withManual_sub (mem_dedupKeepFirst_sub h) with h | h
    · exact Or.inl h
    · exact Or.inr h

/-! ## C1 -/

/-- C1: for every input guidance text, the list returned by
`parse_associate_tasks` contains no duplicate elements (the
deduplication pass keeps the first occurrence of each task and the
subsequent move-to-end of the manual option preserves distinctness). -/
theorem C1_parse_associate_tasks_nodup (g : Option String) :
    (parse_associate_tasks g).Nodup := by
  cases g with
  | none => simp [parse_associate_tasks]
  | some g =>
    simp only [parse_associate_tasks]
    by_cases hg : g = ""
    · simp [hg]
    · rw [if_neg hg]
      unfold parseAssociateBody
      set blocks2 := if processLines (splitlinesKE (pyStrip g)) = [] ∧ pyStrip g ≠ ""
        then [pyStrip g] else processLines (splitlinesKE (pyStrip g)) with hb2
      by_cases hempty : blocks2 = []
      · rw [if_pos hempty]; simp
      · rw [if_neg hempty]
        exact nodup_finalizeTasks blocks2

/-! ## Whitespace and stripping lemmas -/

theorem stripL_eq_nil_iff {cs : List Char} :
    stripL cs = [] ↔ ∀ c ∈ cs, pyWsC c = true := by
  unfold stripL
  rw [List.reverse_eq_nil_iff, List.dropWhile_eq_nil_iff]
  constructor
  · intro h c hc
    rw [← List.takeWhile_append_dropWhile (p := pyWsC) (l := cs)] at hc
    rcases List.mem_append.mp hc with h1 | h1
    · exact List.mem_takeWhile_imp h1
    · exact h c (List.mem_reverse.mpr h1)
  · intro h c hc
    exact h c ((List.dropWhile_sublist (l := cs) (p := pyWsC)).subset
      (List.mem_reverse.mp hc))

theorem pyStrip_eq_empty_iff {s : String} :
    pyStrip s = "" ↔ ∀ c ∈ s.data, pyWsC c = true := by
  rw [pyStrip, String.ext_iff]
  exact stripL_eq_nil_iff

theorem pyStrip_ne_empty_of_witness {s : String} {c : Char}
    (hc : c ∈ s.data) (hws : pyWsC c = false) : pyStrip s ≠ "" := by
  intro h
  have := pyStrip_eq_empty_iff.mp h c hc
  simp [this] at hws

theorem exists_nonws_of_pyStrip_ne {s : String} (h : pyStrip s ≠ "") :
    ∃ c ∈ s.data, pyWsC c = false := by
  by_contra hall
  push_neg at hall
  exact h (pyStrip_eq_empty_iff.mpr (fun c hc => by
    have := hall c hc
    cases hws : pyWsC c with
    | false => exact absurd hws this
    | true => rfl))

theorem taskHeaderMatch_empty : taskHeaderMatch "" = false := by decide

theorem pyStrip_ne_of_header {l : String}
    (h : taskHeaderMatch (pyStrip l) = true) : pyStrip l ≠ "" := by
  intro he
  rw [he, taskHeaderMatch_empty] at h
  exact Bool.false_ne_true h

theorem mem_pyJoin_data {cur : List String} {l : String} {c : Char}
    (hl : l ∈ cur) (hc : c ∈ l.data) : c ∈ (pyJoin cur).data := by
  show c ∈ (cur.map String.data).flatten
  exact List.mem_flatten.mpr ⟨l.data, List.mem_map_of_mem _ hl, hc⟩

theorem mem_data_of_mem_pyJoin {cur : List String} {c : Char}
    (hc : c ∈ (pyJoin cur).data) : ∃ l ∈ cur, c ∈ l.data := by
  have hc' : c ∈ (cur.map String.data).flatten := hc
  rcases List.mem_flatten.mp hc' with ⟨d, hd, hcd⟩
  rcases List.mem_map.mp hd with ⟨l, hl, rfl⟩
  exact ⟨l, hl, hcd⟩

/-! ## Loop lemmas for `parse_associate_tasks` -/

theorem mem_flushBlock_of_mem {cur acc : List String} {t : String}
    (h : t ∈ acc) : t ∈ flushBlock cur acc := by
  unfold flushBlock
  by_cases hc : cur = []
  · rwa [if_pos hc]
  · rw [if_neg hc]
    exact List.mem_append.mpr (Or.inl h)

/-- If no line matches the Task-header pattern, the loop never opens a
block and returns its accumulator unchanged. -/
theorem assocLoop_no_header :
    ∀ (lines acc : List String),
      (∀ l ∈ lines, taskHeaderMatch (pyStrip l) = false) →
      assocLoop lines [] acc = acc
  | [], acc, _ => by simp [assocLoop, flushBlock]
  | l :: rest, acc, h => by
    by_cases hs : containsStopLine l
    · simp [assocLoop, if_pos hs, flushBlock]
    · have hh : taskHeaderMatch (pyStrip l) = false := h l (List.mem_cons_self _ _)
      simp only [assocLoop, if_neg hs, hh, Bool.false_eq_true, if_false, if_pos rfl]
      exact assocLoop_no_header rest acc (fun x hx => h x (List.mem_cons_of_mem _ hx))

/-- Processing halts at the stop line: the loop computes the same
result on the prefix of lines before the first stop line. -/
theorem assocLoop_stopCut :
    ∀ (lines cur acc : List String),
      assocLoop lines cur acc =
        assocLoop (lines.takeWhile (fun l => !containsStopLine l)) cur acc
  | [], _, _ => rfl
  | l :: rest, cur, acc => by
    by_cases hs : containsStopLine l
    · simp [assocLoop, if_pos hs, List.takeWhile_cons, hs]
    · simp only [assocLoop, if_neg hs, List.takeWhile_cons, hs, Bool.not_false, if_pos rfl]
      by_cases hh : taskHeaderMatch (pyStrip l)
      · simp only [if_pos hh]
        exact assocLoop_stopCut rest [l] (flushBlock cur acc)
      · simp only [if_neg hh]
        by_cases hc : cur = []
        · simp only [if_pos hc]
          exact assocLoop_stopCut rest cur acc
        · simp only [if_neg hc]
          exact assocLoop_stopCut rest (cur ++ [l]) acc

/-- Once a Task header has been seen (and no stop line interferes), the
loop's output contains a nonempty task. -/
theorem assocLoop_ex_nonempty :
    ∀ (lines cur acc : List String),
      (∀ l ∈ lines, containsStopLine l = false) →
      ((∃ l ∈ lines, taskHeaderMatch (pyStrip l) = true) ∨
        (cur ≠ [] ∧ ∃ c ∈ (pyJoin cur).data, pyWsC c = false) ∨
        (∃ t ∈ acc, t ≠ "")) →
      ∃ t ∈ assocLoop lines cur acc, t ≠ ""
  | [], cur, acc, _, hdisj => by
    rcases hdisj with ⟨l, hl, _⟩ | ⟨hc, c, hcm, hcw⟩ | ⟨t, ht, hne⟩
    · exact absurd hl (List.not_mem_nil l)
    · refine ⟨pyStrip (pyJoin cur), ?_, ?_⟩
      · show _ ∈ flushBlock cur acc
        unfold flushBlock
        rw [if_neg hc]
        exact List.mem_append.mpr (Or.inr (List.mem_singleton.mpr rfl))
      · exact pyStrip_ne_empty_of_witness hcm hcw
    · exact ⟨t, mem_flushBlock_of_mem ht, hne⟩
  | l :: rest, cur, acc, hstop, hdisj => by
    have hs : containsStopLine l = false := hstop l (List.mem_cons_self _ _)
    have hstop' : ∀ x ∈ rest, containsStopLine x = false :=
      fun x hx => hstop x (List.mem_cons_of_mem _ hx)
    simp only [assocLoop, hs, Bool.false_eq_true, if_false]
    by_cases hh : taskHeaderMatch (pyStrip l) = true
    · simp only [if_pos hh]
      refine assocLoop_ex_nonempty rest [l] (flushBlock cur acc) hstop' (Or.inr (Or.inl ?_))
      refine ⟨by simp, ?_⟩
      rcases exists_nonws_of_pyStrip_ne (pyStrip_ne_of_header hh) with ⟨c, hcm, hcw⟩
      exact ⟨c, mem_pyJoin_data (List.mem_singleton.mpr rfl) hcm, hcw⟩
    · simp only [if_neg hh]
      rcases hdisj with ⟨x, hx, hxh⟩ | ⟨hc, c, hcm, hcw⟩ | ⟨t, ht, hne⟩
      · have hx' : x ∈ rest := by
          rcases List.mem_cons.mp hx with h | h
          · exact absurd (h ▸ hxh) hh
          · exact h
        by_cases hc : cur = []
        · simp only [if_pos hc]
          exact assocLoop_ex_nonempty rest cur acc hstop' (Or.inl ⟨x, hx', hxh⟩)
        · simp only [if_neg hc]
          exact assocLoop_ex_nonempty rest (cur ++ [l]) acc hstop' (Or.inl ⟨x, hx', hxh⟩)
      · rw [if_neg hc]
        refine assocLoop_ex_nonempty rest (cur ++ [l]) acc hstop' (Or.inr (Or.inl ?_))
        refine ⟨by simp, ?_⟩
        rcases mem_data_of_mem_pyJoin hcm with ⟨x, hx, hcx⟩
        exact ⟨c, mem_pyJoin_data (List.mem_append.mpr (Or.inl hx)) hcx, hcw⟩
      · by_cases hc : cur = []
        · simp only [if_pos hc]
          exact assocLoop_ex_nonempty rest cur acc hstop' (Or.inr (Or.inr ⟨t, ht, hne⟩))
        · simp only [if_neg hc]
          exact assocLoop_ex_nonempty rest (cur ++ [l]) acc hstop' (Or.inr (Or.inr ⟨t, ht, hne⟩))

theorem head?_finalizeTasks_singleton (x : String) :
    (finalizeTasks [x]).head? = some x := by
  by_cases hx : x = manualOption
  · subst hx; decide
  · have hx' : ¬ manualOption = x := fun h => hx h.symm
    have h1 : withManual [x] = [x, manualOption] := by
      unfold withManual
      rw [if_neg (by simp [hx'])]
      rfl
    have h2 : dedupKeepFirst [x, manualOption] = [x, manualOption] := by
      unfold dedupKeepFirst
      simp [dedupAux, hx']
    have h3 : moveManualEnd [x, manualOption] = [x, manualOption] := by
      unfold moveManualEnd
      rw [if_pos (by simp)]
      simp [removeFirst, hx]
    rw [finalizeTasks_eq, h1, h2, h3]
    rfl

theorem parseAssociateBody_eq_finalize {g : String}
    (h : (if processLines (splitlinesKE (pyStrip g)) = [] ∧ pyStrip g ≠ ""
        then [pyStrip g] else processLines (splitlinesKE (pyStrip g))) ≠ []) :
    parseAssociateBody g =
      finalizeTasks (if processLines (splitlinesKE (pyStrip g)) = [] ∧ pyStrip g ≠ ""
        then [pyStrip g] else processLines (splitlinesKE (pyStrip g))) := by
  unfold parseAssociateBody
  rw [if_neg h]

/-! ## C9 -/

/-- C9: the `None` and empty-string inputs short-circuit to `[]`, while
a whitespace-only non-empty input falls through the whole parse, finds
nothing, and returns the single default prompt. -/
theorem C9_degenerate_inputs :
    parse_associate_tasks none = [] ∧
    parse_associate_tasks (some "") = [] ∧
    ∀ g : String, g ≠ "" → (∀ c ∈ g.data, pyWsC c = true) →
      parse_associate_tasks (some g) =
        ["Manually define task based on guidance above."] := by
  refine ⟨rfl, by decide, ?_⟩
  intro g hg hws
  have hst : pyStrip g = "" := pyStrip_eq_empty_iff.mpr hws
  simp only [parse_associate_tasks, if_neg hg]
  unfold parseAssociateBody
  rw [hst]
  decide

/-- C9 witness at the whitespace-only input `" "`. -/
theorem C9_degenerate_inputs_witness :
    parse_associate_tasks (some " ") =
      ["Manually define task based on guidance above."] :=
  C9_degenerate_inputs.2.2 " " (by decide) (by decide)

/-! ## C3 -/

/-- C3: when the stripped guidance is non-empty and no line of it
matches the Task-header pattern (applied, as in the code, to the
stripped line), the whole stripped guidance text is returned as the
first element of the result. -/
theorem C3_fallback_whole_guidance (g : String)
    (hst : pyStrip g ≠ "")
    (hnone : ∀ l ∈ splitlinesKE (pyStrip g), taskHeaderMatch (pyStrip l) = false) :
    (parse_associate_tasks (some g)).head? = some (pyStrip g) := by
  have hg : g ≠ "" := by
    intro h
    exact hst (by rw [h]; decide)
  have hblocks : processLines (splitlinesKE (pyStrip g)) = [] := by
    unfold processLines
    rw [assocLoop_no_header _ _ hnone]
    rfl
  simp only [parse_associate_tasks, if_neg hg, parseAssociateBody]
  rw [if_pos (⟨hblocks, hst⟩ :
    processLines (splitlinesKE (pyStrip g)) = [] ∧ pyStrip g ≠ "")]
  rw [if_neg (by simp : ¬([pyStrip g] = []))]
  exact head?_finalizeTasks_singleton (pyStrip g)

/-- C3 witness at a concrete guidance text without Task headers. -/
theorem C3_fallback_whole_guidance_witness :
    (parse_associate_tasks (some "  general advice\nno headers here ")).head? =
      some "general advice\nno headers here" :=
  C3_fallback_whole_guidance "  general advice\nno headers here "
    (by decide) (by decide)

/-! ## C8 -/

/-- C8: for every guidance text with non-empty stripped form the result
is non-empty and its last element is exactly
`"Manually define task below"`. -/
theorem C8_manual_option_last (g : String) (hst : pyStrip g ≠ "") :
    (parse_associate_tasks (some g)).getLast? = some "Manually define task below" ∧
    parse_associate_tasks (some g) ≠ [] := by
  have hg : g ≠ "" := by
    intro h
    exact hst (by rw [h]; decide)
  simp only [parse_associate_tasks, if_neg hg]
  have hne : (if processLines (splitlinesKE (pyStrip g)) = [] ∧ pyStrip g ≠ ""
      then [pyStrip g] else processLines (splitlinesKE (pyStrip g))) ≠ [] := by
    by_cases hb : processLines (splitlinesKE (pyStrip g)) = []
    · rw [if_pos ⟨hb, hst⟩]; simp
    · rw [if_neg (fun hand => hb hand.1)]; exact hb
  rw [parseAssociateBody_eq_finalize hne]
  have hlast := getLast?_finalizeTasks
    (if processLines (splitlinesKE (pyStrip g)) = [] ∧ pyStrip g ≠ ""
      then [pyStrip g] else processLines (splitlinesKE (pyStrip g)))
  refine ⟨hlast, ?_⟩
  intro h0
  rw [h0] at hlast
  exact Option.noConfusion hlast

/-- C8 witness at the concrete guidance `"x"`. -/
theorem C8_manual_option_last_witness :
    (parse_associate_tasks (some "x")).getLast? = some "Manually define task below" ∧
    parse_associate_tasks (some "x") ≠ [] :=
  C8_manual_option_last "x" (by decide)

/-! ## C10 -/

/-- C10: if some line before the first stop line
(`"5. Develop Narrative:"`) matches the Task-header pattern, then every
returned task is either the manual-define option or one of the blocks
assembled purely from the lines before the stop line — no text at or
after the stop line is used. -/
theorem C10_stop_line_truncation (g : String)
    (h : ∃ l ∈ (splitlinesKE (pyStrip g)).takeWhile (fun l => !containsStopLine l),
      taskHeaderMatch (pyStrip l) = true) :
    ∀ t ∈ parse_associate_tasks (some g),
      t = manualOption ∨
        t ∈ processLines
          ((splitlinesKE (pyStrip g)).takeWhile (fun l => !containsStopLine l)) := by
  intro t ht
  by_cases hg : g = ""
  · rw [hg] at ht
    rw [show parse_associate_tasks (some "") = [] by decide] at ht
    exact absurd ht (List.not_mem_nil t)
  · have hpre_stop : ∀ l ∈ (splitlinesKE (pyStrip g)).takeWhile
        (fun l => !containsStopLine l), containsStopLine l = false := by
      intro l hl
      have := List.mem_takeWhile_imp hl
      simpa using this
    have hcut : processLines (splitlinesKE (pyStrip g)) =
        processLines ((splitlinesKE (pyStrip g)).takeWhile (fun l => !containsStopLine l)) := by
      unfold processLines
      rw [assocLoop_stopCut]
    have hB : ∃ u ∈ processLines
        ((splitlinesKE (pyStrip g)).takeWhile (fun l => !containsStopLine l)), u ≠ "" := by
      rcases assocLoop_ex_nonempty _ [] [] hpre_stop (Or.inl h) with ⟨u, hu, hune⟩
      exact ⟨u, List.mem_filter.mpr ⟨hu, by simpa using hune⟩, hune⟩
    have hBne : processLines (splitlinesKE (pyStrip g)) ≠ [] := by
      rw [hcut]
      rcases hB with ⟨u, hu, _⟩
      intro h0
      rw [h0] at hu
      exact List.not_mem_nil u hu
    rw [parse_associate_tasks, if_neg hg] at ht
    have hif : (if processLines (splitlinesKE (pyStrip g)) = [] ∧ pyStrip g ≠ ""
        then [pyStrip g] else processLines (splitlinesKE (pyStrip g))) =
        processLines (splitlinesKE (pyStrip g)) := by
      rw [if_neg (fun hand => hBne hand.1)]
    rw [parseAssociateBody_eq_finalize (by rw [hif]; exact hBne), hif] at ht
    rcases mem_finalizeTasks_sub ht with h1 | h1
    · exact Or.inl h1
    · exact Or.inr (hcut ▸ h1)

/-- C10 witness: in a guidance with one Task header before the stop
line, the first returned task is a pre-stop block (it is not the
manual-define option, hence it lies in the pre-stop block list). -/
theorem C10_stop_line_truncation_witness :
    "**Task 1:** alpha" = manualOption ∨
      "**Task 1:** alpha" ∈ processLines
        ((splitlinesKE (pyStrip "**Task 1:** alpha\n5. Develop Narrative:\npost-stop text")).takeWhile
          (fun l => !containsStopLine l)) :=
  C10_stop_line_truncation "**Task 1:** alpha\n5. Develop Narrative:\npost-stop text"
    (by decide) "**Task 1:** alpha" (by decide)

/-! ## Lemmas for `parse_analyst_task_response` -/

theorem mem_insertByStart_sub {x y : SecMatch} {l : List SecMatch}
    (h : x ∈ insertByStart y l) : x = y ∨ x ∈ l := by
  induction l with
  | nil =>
    simp only [insertByStart, List.mem_singleton] at h
    exact Or.inl h
  | cons z zs ih =>
    unfold insertByStart at h
    by_cases hlt : z.mstart < y.mstart
    · rw [if_pos hlt] at h
      rcases List.mem_cons.mp h with h | h
      · exact Or.inr (h ▸ List.mem_cons_self _ _)
      · rcases ih h with h | h
        · exact Or.inl h
        · exact Or.inr (List.mem_cons_of_mem _ h)
    · rw [if_neg hlt] at h
      rcases List.mem_cons.mp h with h | h
      · exact Or.inl h
      · exact Or.inr h

theorem mem_foldr_insertByStart_sub {m : SecMatch} :
    ∀ {l : List SecMatch}, m ∈ l.foldr insertByStart [] → m ∈ l := by
  intro l
  induction l with
  | nil => intro h; exact absurd h (List.not_mem_nil m)
  | cons x xs ih =>
    intro h
    rcases mem_insertByStart_sub h with h | h
    · exact h ▸ List.mem_cons_self _ _
    · exact List.mem_cons_of_mem _ (ih h)

theorem mem_sortedSections_sub {cs : List Char} {m : SecMatch}
    (h : m ∈ sortedSections cs) : m ∈ sectionMatches cs :=
  mem_foldr_insertByStart_sub h

theorem getPart_setPart_ne (p : AnalystParts) {k k' : AKey} (v : String)
    (h : k' ≠ k) : getPart (setPart p k' v) k = getPart p k := by
  cases k <;> cases k' <;> first | rfl | exact absurd rfl h

theorem extractAll_keeps (txt : List Char) (entries : List SecMatch) (k : AKey)
    (h : ∀ m ∈ entries, m.key ≠ k) :
    ∀ p : AnalystParts, getPart (extractAll txt entries p) k = getPart p k := by
  induction entries with
  | nil => intro p; rfl
  | cons m rest ih =>
    intro p
    simp only [extractAll]
    rw [ih (fun x hx => h x (List.mem_cons_of_mem _ hx))]
    exact getPart_setPart_ne p _ (h m (List.mem_cons_self _ _))

theorem no_approach_entries {cs : List Char} (h : finditerKey matchApproachH cs = []) :
    ∀ m ∈ sortedSections cs, m.key ≠ AKey.approach := by
  intro m hm hk
  have hm' := mem_sortedSections_sub hm
  unfold sectionMatches at hm'
  rw [h] at hm'
  simp only [List.map_nil, List.nil_append, List.mem_append, List.mem_map] at hm'
  rcases hm' with (⟨p, _, rfl⟩ | ⟨p, _, rfl⟩) | ⟨p, _, rfl⟩ <;> simp at hk

theorem no_code_entries {cs : List Char} (h : finditerKey matchCodeH cs = []) :
    ∀ m ∈ sortedSections cs, m.key ≠ AKey.code := by
  intro m hm hk
  have hm' := mem_sortedSections_sub hm
  unfold sectionMatches at hm'
  rw [h] at hm'
  simp only [List.map_nil, List.append_nil, List.nil_append, List.mem_append,
    List.mem_map] at hm'
  rcases hm' with (⟨p, _, rfl⟩ | ⟨p, _, rfl⟩) | ⟨p, _, rfl⟩ <;> simp at hk

theorem no_results_entries {cs : List Char} (h : finditerKey matchResultsH cs = []) :
    ∀ m ∈ sortedSections cs, m.key ≠ AKey.results_text := by
  intro m hm hk
  have hm' := mem_sortedSections_sub hm
  unfold sectionMatches at hm'
  rw [h] at hm'
  simp only [List.map_nil, List.append_nil, List.nil_append, List.mem_append,
    List.mem_map] at hm'
  rcases hm' with (⟨p, _, rfl⟩ | ⟨p, _, rfl⟩) | ⟨p, _, rfl⟩ <;> simp at hk

theorem no_insights_entries {cs : List Char} (h : finditerKey matchInsightsH cs = []) :
    ∀ m ∈ sortedSections cs, m.key ≠ AKey.insights := by
  intro m hm hk
  have hm' := mem_sortedSections_sub hm
  unfold sectionMatches at hm'
  rw [h] at hm'
  simp only [List.map_nil, List.append_nil, List.mem_append, List.mem_map] at hm'
  rcases hm' with (⟨p, _, rfl⟩ | ⟨p, _, rfl⟩) | ⟨p, _, rfl⟩ <;> simp at hk

/-! ## C2 -/

/-- C2 (amended): for every NON-empty response text the result dict has
exactly the keys approach/code/results_text/insights (here by
construction of `AnalystParts`), and any key whose header pattern finds
no match in the text keeps its "Could not parse ..." placeholder (the
approach placeholder carrying the "2." prefix).  The original claim
extended this to the empty string, where the code instead returns the
distinct error dict (see the counterexample). -/
theorem C2_placeholders_when_header_missing (s : String) (hs : s ≠ "") :
    (finditerKey matchApproachH s.data = [] →
      (parse_analyst_task_response s).approach =
        "2.Could not parse \x27approach\x27 section.") ∧
    (finditerKey matchCodeH s.data = [] →
      (parse_analyst_task_response s).code =
        "Could not parse \x27code\x27 section.") ∧
    (finditerKey matchResultsH s.data = [] →
      (parse_analyst_task_response s).results_text =
        "Could not parse \x27results_text\x27 section.") ∧
    (finditerKey matchInsightsH s.data = [] →
      (parse_analyst_task_response s).insights =
        "Could not parse \x27insights\x27 section.") := by
  refine ⟨fun h => ?_, fun h => ?_, fun h => ?_, fun h => ?_⟩
  · have := extractAll_keeps s.data (sortedSections s.data) AKey.approach
      (no_approach_entries h) initParts
    simpa [parse_analyst_task_response, if_neg hs, getPart, initParts] using this
  · have := extractAll_keeps s.data (sortedSections s.data) AKey.code
      (no_code_entries h) initParts
    simpa [parse_analyst_task_response, if_neg hs, getPart, initParts] using this
  · have := extractAll_keeps s.data (sortedSections s.data) AKey.results_text
      (no_results_entries h) initParts
    simpa [parse_analyst_task_response, if_neg hs, getPart, initParts] using this
  · have := extractAll_keeps s.data (sortedSections s.data) AKey.insights
      (no_insights_entries h) initParts
    simpa [parse_analyst_task_response, if_neg hs, getPart, initParts] using this

/-- C2 counterexample: at the empty string every header is absent, yet
the code returns the error dict, not the "Could not parse ..."
placeholders the claim asserts — so the claim fails at input `""`. -/
theorem C2_empty_string_counterexample :
    finditerKey matchApproachH "".data = [] ∧
    parse_analyst_task_response "" =
      { approach := "Error: No response from Analyst.", code := "",
        results_text := "", insights := "" } ∧
    (parse_analyst_task_response "").approach ≠
      "2.Could not parse \x27approach\x27 section." := by
  exact ⟨rfl, by decide, by decide⟩

/-- C2 witness at the headerless non-empty response `"hello"`. -/
theorem C2_placeholders_witness :
    (parse_analyst_task_response "hello").approach =
      "2.Could not parse \x27approach\x27 section." ∧
    (parse_analyst_task_response "hello").code =
      "Could not parse \x27code\x27 section." ∧
    (parse_analyst_task_response "hello").results_text =
      "Could not parse \x27results_text\x27 section." ∧
    (parse_analyst_task_response "hello").insights =
      "Could not parse \x27insights\x27 section." :=
  ⟨(C2_placeholders_when_header_missing "hello" (by decide)).1 (by decide),
   (C2_placeholders_when_header_missing "hello" (by decide)).2.1 (by decide),
   (C2_placeholders_when_header_missing "hello" (by decide)).2.2.1 (by decide),
   (C2_placeholders_when_header_missing "hello" (by decide)).2.2.2 (by decide)⟩

/-! ## C4 -/

/-- C4: when the Manager plan or the Analyst summary is absent (`None`
or empty), `generate_associate_guidance` warns and returns immediately:
no LLM call is made (the Bool is `false`) and the session state — in
particular the stored `associate_guidance` — is unchanged. -/
theorem C4_guidance_stage_gating
    (fmt : String → String → String → String → Except String String)
    (oracle : String → String) (s : GuidanceState)
    (h : falsyOpt s.analyst_summary = true ∨ falsyOpt s.manager_plan = true) :
    generate_associate_guidance fmt oracle s = (s, false) := by
  unfold generate_associate_guidance
  rcases h with h | h <;> simp [h]

/-- C4 witness: a state with a Manager plan absent. -/
theorem C4_guidance_stage_gating_witness :
    generate_associate_guidance (fun _ _ _ _ => Except.ok "prompt") (fun _ => "resp")
      { problem_statement := "ps", associate_prompt_template := "tpl",
        manager_plan := none, analyst_summary := some "summary",
        associate_guidance := some "old", conversation := [] } =
      (({ problem_statement := "ps", associate_prompt_template := "tpl",
          manager_plan := none, analyst_summary := some "summary",
          associate_guidance := some "old", conversation := [] } : GuidanceState), false) :=
  C4_guidance_stage_gating _ _ _ (Or.inr rfl)

/-! ## C5 -/

theorem nsLookup_eq_none_of_not_mem {V : Type} {ns : NS V}
    (h : "fig" ∉ ns.map Prod.fst) : nsLookup ns "fig" = none := by
  induction ns with
  | nil => rfl
  | cons p rest ih =>
    simp only [List.map_cons, List.mem_cons] at h
    push_neg at h
    show nsLookup (p :: rest) "fig" = none
    unfold nsLookup
    rw [if_neg (fun hh => h.1 hh.symm)]
    exact ih h.2

/-- C5: `execute_snippet` always returns normally with the pair of the
captured stdout and the `fig` binding of the final namespace: on clean
execution the stdout is exactly what was printed, on an exception the
message is appended as `"\nError during execution: ..."`; when the
snippet binds no `fig` variable the second component is `none`. -/
theorem C5_execute_snippet_behaviour {V : Type}
    (run : String → NS V → ExecOutcome V) (code : String)
    (dataframes : List (String × V)) (vpl vpd vpx vgo : V) :
    (∀ p ns, run code (buildLocalNs dataframes vpl vpd vpx vgo) = ⟨p, ns, none⟩ →
      execute_snippet run code dataframes vpl vpd vpx vgo = (p, nsLookup ns "fig")) ∧
    (∀ p ns msg, run code (buildLocalNs dataframes vpl vpd vpx vgo) = ⟨p, ns, some msg⟩ →
      execute_snippet run code dataframes vpl vpd vpx vgo =
        (p ++ "\nError during execution: " ++ msg ++ "\n", nsLookup ns "fig")) ∧
    (∀ p ns e, run code (buildLocalNs dataframes vpl vpd vpx vgo) = ⟨p, ns, e⟩ →
      "fig" ∉ ns.map Prod.fst →
      (execute_snippet run code dataframes vpl vpd vpx vgo).2 = none) := by
  refine ⟨fun p ns h => ?_, fun p ns msg h => ?_, fun p ns e h hfig => ?_⟩
  · unfold execute_snippet
    rw [h]
  · unfold execute_snippet
    rw [h]
  · unfold execute_snippet
    rw [h]
    exact nsLookup_eq_none_of_not_mem hfig

/-- C5 witness: a failing snippet whose partial namespace binds `fig`. -/
theorem C5_execute_snippet_behaviour_witness :
    execute_snippet (V := Nat) (fun _ _ => ⟨"out", [("fig", 7)], some "boom"⟩)
      "raise" [("a.csv", 1)] 0 0 0 0 =
      ("out\nError during execution: boom\n", some 7) :=
  (C5_execute_snippet_behaviour (V := Nat)
    (fun _ _ => ⟨"out", [("fig", 7)], some "boom"⟩)
    "raise" [("a.csv", 1)] 0 0 0 0).2.1 "out" [("fig", 7)] "boom" rfl

/-! ## C7 -/

/-- C7: the profile built by `_generate_polars_profile` always records
file_type "tabular", the column list, the (rows, columns) shape and the
per-column dtype mapping, and each of the two fallible summaries is
stored as the computed DataFrame on success and as an error-marker
DataFrame (never a raised exception) on failure. -/
theorem C7_generate_polars_profile (df : PolarsDF) :
    (_generate_polars_profile df).file_type = "tabular" ∧
    (_generate_polars_profile df).columns = df.columns ∧
    (_generate_polars_profile df).shape = (df.height, df.columns.length) ∧
    (_generate_polars_profile df).dtypes = df.schema ∧
    (∀ m, df.null_count = PyRes.ok m → m.shape = (1, df.columns.length) →
      (_generate_polars_profile df).missing_summary = SummaryEntry.df m) ∧
    (∀ e, df.null_count = PyRes.err e →
      (_generate_polars_profile df).missing_summary =
        SummaryEntry.errDF ("Missing value calculation error: " ++ e)) ∧
    (∀ m, df.describe = PyRes.ok m →
      (_generate_polars_profile df).numeric_summary = SummaryEntry.df m) ∧
    (∀ e, df.describe = PyRes.err e →
      (_generate_polars_profile df).numeric_summary =
        SummaryEntry.errDF ("Describe calculation error: " ++ e)) := by
  refine ⟨rfl, rfl, rfl, rfl, fun m h hs => ?_, fun e h => ?_, fun m h => ?_,
    fun e h => ?_⟩
  · simp [_generate_polars_profile, h, hs]
  · simp [_generate_polars_profile, h]
  · simp [_generate_polars_profile, h]
  · simp [_generate_polars_profile, h]

/-- C7 witness: a DataFrame whose `null_count` and `describe` both
raise. -/
theorem C7_generate_polars_profile_witness :
    (_generate_polars_profile
      { columns := ["a", "b"], height := 3, schema := [("a", "Int64"), ("b", "Utf8")],
        null_count := PyRes.err "nc boom", describe := PyRes.err "desc boom" }).missing_summary =
      SummaryEntry.errDF "Missing value calculation error: nc boom" ∧
    (_generate_polars_profile
      { columns := ["a", "b"], height := 3, schema := [("a", "Int64"), ("b", "Utf8")],
        null_count := PyRes.err "nc boom", describe := PyRes.err "desc boom" }).numeric_summary =
      SummaryEntry.errDF "Describe calculation error: desc boom" :=
  ⟨(C7_generate_polars_profile _).2.2.2.2.2.1 "nc boom" rfl,
   (C7_generate_polars_profile _).2.2.2.2.2.2.2 "desc boom" rfl⟩

/-! ## C6 -/

/-- C6: `process_uploaded_file` dispatches on the lower-cased file
extension: `.csv`/`.xlsx`/`.xls` give the read dataframe with its
tabular profile and empty text (or `(None, None, "")` on a read error),
`.docx`/`.pdf` give no dataframe, the small text profile with
`file_type` and `text_length`, and the extracted text, and every other
extension gives `(None, None, "")`. -/
theorem C6_process_uploaded_file_dispatch (f : UploadedFile) :
    (extLower f.name = ".csv" →
      (∀ df, f.csv_read = PyRes.ok df →
        process_uploaded_file (some f) =
          (some df, some (FileProfile.tabular (_generate_polars_profile df)), "")) ∧
      (∀ e, f.csv_read = PyRes.err e →
        process_uploaded_file (some f) = (none, none, ""))) ∧
    ((extLower f.name = ".xlsx" ∨ extLower f.name = ".xls") →
      (∀ df, f.excel_read = PyRes.ok df →
        process_uploaded_file (some f) =
          (some df, some (FileProfile.tabular (_generate_polars_profile df)), "")) ∧
      (∀ e, f.excel_read = PyRes.err e →
        process_uploaded_file (some f) = (none, none, ""))) ∧
    (extLower f.name = ".docx" →
      process_uploaded_file (some f) =
        (none, some (FileProfile.textdoc "docx" f.docx_text.length), f.docx_text)) ∧
    (extLower f.name = ".pdf" →
      process_uploaded_file (some f) =
        (none, some (FileProfile.textdoc "pdf" f.pdf_text.length), f.pdf_text)) ∧
    (extLower f.name ∉ [".csv", ".xlsx", ".xls", ".docx", ".pdf"] →
      process_uploaded_file (some f) = (none, none, "")) := by
  refine ⟨fun hext => ⟨fun df h => ?_, fun e h => ?_⟩,
    fun hext => ⟨fun df h => ?_, fun e h => ?_⟩, fun hext => ?_, fun hext => ?_,
    fun hext => ?_⟩
  · simp [process_uploaded_file, hext, process_csv_file, h]
  · simp [process_uploaded_file, hext, process_csv_file, h]
  · have hne : extLower f.name ≠ ".csv" := by
      rcases hext with hext | hext <;> rw [hext] <;> decide
    simp [process_uploaded_file, hne, hext, process_excel_file, h]
  · have hne : extLower f.name ≠ ".csv" := by
      rcases hext with hext | hext <;> rw [hext] <;> decide
    simp [process_uploaded_file, hne, hext, process_excel_file, h]
  · have h1 : extLower f.name ≠ ".csv" := by rw [hext]; decide
    have h2 : ¬(extLower f.name = ".xlsx" ∨ extLower f.name = ".xls") := by
      rw [hext]; decide
    simp [process_uploaded_file, h1, h2, hext]
  · have h1 : extLower f.name ≠ ".csv" := by rw [hext]; decide
    have h2 : ¬(extLower f.name = ".xlsx" ∨ extLower f.name = ".xls") := by
      rw [hext]; decide
    have h3 : extLower f.name ≠ ".docx" := by rw [hext]; decide
    simp [process_uploaded_file, h1, h2, h3, hext]
  · simp only [List.mem_cons, List.not_mem_nil, or_false, not_or] at hext
    obtain ⟨h1, h2, h3, h4, h5⟩ := hext
    simp [process_uploaded_file, h1, h2, h3, h4, h5]

/-- C6 witness: an upper-case CSV name (successful read), a DOCX file,
and an unsupported extension. -/
theorem C6_process_uploaded_file_dispatch_witness :
    process_uploaded_file (some
      { name := "DATA.CSV",
        csv_read := PyRes.ok
          { columns := ["a"], height := 2, schema := [("a", "Int64")],
            null_count := PyRes.ok { shape := (1, 1), tag := "nc" },
            describe := PyRes.ok { shape := (9, 2), tag := "d" } },
        excel_read := PyRes.err "not excel", docx_text := "", pdf_text := "" }) =
      (some
        { columns := ["a"], height := 2, schema := [("a", "Int64")],
          null_count := PyRes.ok { shape := (1, 1), tag := "nc" },
          describe := PyRes.ok { shape := (9, 2), tag := "d" } },
       some (FileProfile.tabular (_generate_polars_profile
        { columns := ["a"], height := 2, schema := [("a", "Int64")],
          null_count := PyRes.ok { shape := (1, 1), tag := "nc" },
          describe := PyRes.ok { shape := (9, 2), tag := "d" } })), "") ∧
    process_uploaded_file (some
      { name := "notes.docx", csv_read := PyRes.err "no", excel_read := PyRes.err "no",
        docx_text := "four", pdf_text := "" }) =
      (none, some (FileProfile.textdoc "docx" 4), "four") ∧
    process_uploaded_file (some
      { name := "archive.zip", csv_read := PyRes.err "no", excel_read := PyRes.err "no",
        docx_text := "", pdf_text := "" }) =
      (none, none, "") :=
  ⟨((C6_process_uploaded_file_dispatch _).1 (by decide)).1 _ rfl,
   (C6_process_uploaded_file_dispatch _).2.2.1 (by decide),
   (C6_process_uploaded_file_dispatch _).2.2.2.2 (by decide)⟩

end AITeam
